import Mathlib

/-!
Verification development for the incentive and credit-point calculation
engine of the avgbackend repository.

The JavaScript source is shallowly embedded: numbers are exact rationals,
except where IEEE-754 division by zero is observable, in which case the
value is tracked in an explicit JS-number type with infinities and NaN.
Mongoose documents become Lean structures; the in-memory collections the
code reads and writes become explicit lists threaded through the
functions.
-/

/-- One entry of the bonusThresholds array of a MonthlyTarget
(src/unnamed/part_007, schema lines 29-38): an achievement percentage and
the bonus amount paid at that tier. -/
structure BonusThreshold where
  achievement : ℚ
  bonusAmount : ℚ
deriving DecidableEq, Repr

/-- One entry of the serviceTypeTargets array of a MonthlyTarget. -/
structure ServiceTypeTarget where
  serviceType : Nat
  targetCount : Nat
  bonusPerExcess : ℚ
deriving DecidableEq, Repr

/-- The MonthlyTarget document (src/unnamed/part_007): the fields the
calculation engine reads. -/
structure MonthlyTarget where
  month : Nat
  year : Nat
  category : Nat
  targetCreditPoints : ℚ
  targetCompletedServices : Nat
  bonusThresholds : List BonusThreshold
  serviceTypeTargets : List ServiceTypeTarget
deriving DecidableEq, Repr

/-- A JavaScript number as observed by calculateBonus: either a finite
value (modelled as an exact rational) or one of the IEEE-754 special
values Infinity, -Infinity, NaN that JS division by zero produces. -/
inductive JSNum where
  | num : ℚ → JSNum
  | posInf : JSNum
  | negInf : JSNum
  | nan : JSNum
deriving DecidableEq, Repr

/-- JS division of two finite numbers: a / 0 is Infinity, -Infinity or
NaN depending on the sign of the numerator (IEEE-754); otherwise the
finite quotient. -/
def jsDivQ (a b : ℚ) : JSNum :=
  if b = 0 then
    if 0 < a then JSNum.posInf
    else if a < 0 then JSNum.negInf
    else JSNum.nan
  else JSNum.num (a / b)

/-- Multiplying a JS number by the finite positive constant 100:
infinities and NaN are preserved. -/
def jsTimes100 : JSNum → JSNum
  | JSNum.num q => JSNum.num (q * 100)
  | JSNum.posInf => JSNum.posInf
  | JSNum.negInf => JSNum.negInf
  | JSNum.nan => JSNum.nan

/-- The JS comparison x >= t for a finite right-hand side t: Infinity
compares greater than every finite number, -Infinity smaller, and every
comparison with NaN is false. -/
def jsGeQ : JSNum → ℚ → Bool
  | JSNum.num q, t => decide (t ≤ q)
  | JSNum.posInf, _ => true
  | JSNum.negInf, _ => false
  | JSNum.nan, _ => false

/-- The comparison used by the sort comparator of calculateBonus. -/
def thresholdLE (a b : BonusThreshold) : Prop := a.achievement ≤ b.achievement

instance : DecidableRel thresholdLE :=
  fun a b => inferInstanceAs (Decidable (a.achievement ≤ b.achievement))

instance : IsTotal BonusThreshold thresholdLE :=
  ⟨fun a b => le_total a.achievement b.achievement⟩

instance : IsTrans BonusThreshold thresholdLE :=
  ⟨fun _ _ _ h1 h2 => le_trans h1 h2⟩

/-- The ascending sort of the bonusThresholds array performed by
calculateBonus (part_007 line 84): JS Array.sort with comparator
(a, b) => a.achievement - b.achievement, a stable ascending sort by
achievement, modelled by the stable insertion sort. -/
def sortThresholds (ts : List BonusThreshold) : List BonusThreshold :=
  ts.insertionSort thresholdLE

/-- The accumulation loop of calculateBonus (part_007 lines 83-90): walk
the sorted thresholds; while the achievement percentage is >= the
threshold overwrite the bonus, and break at the first threshold that is
not reached. -/
def bonusLoop (pct : JSNum) : List BonusThreshold → ℚ → ℚ
  | [], bonus => bonus
  | t :: ts, bonus =>
    if jsGeQ pct t.achievement then bonusLoop pct ts t.bonusAmount
    else bonus

/-- monthlyTargetSchema.methods.calculateBonus (part_007 lines 79-96):
computes achievementPercentage = (achievedPoints / targetCreditPoints) *
100 with JS division semantics (no guard against a zero target), then
resolves the bonus by the ascending walk. Returns the pair
(achievementPercentage, bonus). -/
def calculateBonus (target : MonthlyTarget) (achievedPoints : ℚ) : JSNum × ℚ :=
  let achievementPercentage :=
    jsTimes100 (jsDivQ achievedPoints target.targetCreditPoints)
  (achievementPercentage, bonusLoop achievementPercentage (sortThresholds target.bonusThresholds) 0)

/-- Specification-side resolver, written from the spec's words (section
4.3 of the spec): after sorting thresholds ascending by achievement, the
bonus is the bonusAmount of the highest threshold whose achievement is at
most the computed percentage, ties broken by the later entry in sorted
order; zero if no threshold qualifies. -/
def specResolvedBonus (thresholds : List BonusThreshold) (pct : ℚ) : ℚ :=
  match ((sortThresholds thresholds).filter (fun t => decide (t.achievement ≤ pct))).getLast? with
  | some t => t.bonusAmount
  | none => 0

/-- A comparison that fails against a JS number also fails against every
larger right-hand side: the qualifying set of a sorted walk is a prefix. -/
theorem jsGeQ_false_mono {pct : JSNum} {a b : ℚ} (hab : a ≤ b) (h : jsGeQ pct a = false) :
    jsGeQ pct b = false := by
  cases pct with
  | num q =>
    simp only [jsGeQ, decide_eq_false_iff_not, not_le] at h ⊢
    exact lt_of_lt_of_le h hab
  | posInf => simp [jsGeQ] at h
  | negInf => rfl
  | nan => rfl

/-- In a sorted threshold list whose head does not qualify, no later
threshold qualifies either. -/
theorem filter_eq_nil_of_head_fails {pct : JSNum} {t : BonusThreshold} {ts : List BonusThreshold}
    (hsorted : (t :: ts).Sorted thresholdLE) (h : jsGeQ pct t.achievement = false) :
    ts.filter (fun x => jsGeQ pct x.achievement) = [] := by
  rw [List.filter_eq_nil_iff]
  intro x hx
  have hle : thresholdLE t x := (List.sorted_cons.mp hsorted).1 x hx
  simp [jsGeQ_false_mono hle h]

/-- The overwriting walk of calculateBonus over a sorted threshold list
returns the bonusAmount of the last qualifying threshold, or the initial
accumulator when none qualifies. -/
theorem bonusLoop_eq (pct : JSNum) :
    ∀ (ts : List BonusThreshold) (b : ℚ), ts.Sorted thresholdLE →
    bonusLoop pct ts b =
      (match (ts.filter (fun x => jsGeQ pct x.achievement)).getLast? with
       | some t => t.bonusAmount
       | none => b) := by
  intro ts
  induction ts with
  | nil => intro b _; rfl
  | cons t ts ih =>
    intro b hsorted
    by_cases h : jsGeQ pct t.achievement = true
    · rw [bonusLoop, if_pos h, ih t.bonusAmount (List.sorted_cons.mp hsorted).2]
      simp only [List.filter_cons, h, if_true]
      cases hfe : ts.filter (fun x => jsGeQ pct x.achievement) with
      | nil => simp [hfe]
      | cons y ys =>
        obtain ⟨z, hz⟩ := Option.isSome_iff_exists.mp (List.getLast?_isSome.mpr (List.cons_ne_nil y ys))
        simp [hfe, hz]
    · have hf : jsGeQ pct t.achievement = false := by simpa using h
      rw [bonusLoop, if_neg (by simp [hf])]
      simp only [List.filter_cons, hf, if_false, filter_eq_nil_of_head_fails hsorted hf]
      rfl

/-- The output of sortThresholds is sorted by achievement. -/
theorem sorted_sortThresholds (ts : List BonusThreshold) :
    (sortThresholds ts).Sorted thresholdLE :=
  List.sorted_insertionSort thresholdLE ts

/-- C1: for every MonthlyTarget with a strictly positive
targetCreditPoints and every achieved credit-point value, the bonus
resolved by calculateBonus equals the bonusAmount of the highest
threshold (after sorting ascending by achievement, ties broken by the
later entry) whose achievement is at most 100 * achieved / target, and
equals 0 when no threshold qualifies. -/
theorem calculateBonus_resolves_highest_qualifying (target : MonthlyTarget) (achieved : ℚ)
    (h : 0 < target.targetCreditPoints) :
    (calculateBonus target achieved).2 =
      specResolvedBonus target.bonusThresholds (100 * achieved / target.targetCreditPoints) := by
  have hne : target.targetCreditPoints ≠ 0 := ne_of_gt h
  have hpct : jsTimes100 (jsDivQ achieved target.targetCreditPoints) =
      JSNum.num (100 * achieved / target.targetCreditPoints) := by
    simp only [jsDivQ, hne, if_false, jsTimes100]
    congr 1
    ring
  show bonusLoop _ (sortThresholds target.bonusThresholds) 0 = _
  rw [hpct, bonusLoop_eq _ _ _ (sorted_sortThresholds target.bonusThresholds)]
  unfold specResolvedBonus
  have hfeq : ∀ x : BonusThreshold,
      jsGeQ (JSNum.num (100 * achieved / target.targetCreditPoints)) x.achievement =
        decide (x.achievement ≤ 100 * achieved / target.targetCreditPoints) := fun _ => rfl
  simp only [hfeq]

/-- The concrete MonthlyTarget of the spec's example: thresholds 10% for
50, 50% for 200, 90% for 500, with a target of 100 credit points. -/
def exampleTargetC1 : MonthlyTarget :=
  { month := 1, year := 2024, category := 1, targetCreditPoints := 100,
    targetCompletedServices := 10,
    bonusThresholds := [⟨50, 200⟩, ⟨10, 50⟩, ⟨90, 500⟩],
    serviceTypeTargets := [] }

/-- C1 witness: at the example target with 60 achieved points (60
percent), the resolved bonus is 200, in agreement with the general
theorem at a concrete input. -/
theorem calculateBonus_resolves_highest_qualifying_witness :
    (calculateBonus exampleTargetC1 60).2 = 200 ∧
      specResolvedBonus exampleTargetC1.bonusThresholds (100 * 60 / 100) = 200 := by
  have h60 : (100 : ℚ) * 60 / 100 = 60 := by simp
  constructor
  · rw [calculateBonus_resolves_highest_qualifying exampleTargetC1 60 (by decide)]
    show specResolvedBonus exampleTargetC1.bonusThresholds (100 * 60 / 100) = 200
    rw [h60]
    decide
  · rw [h60]
    decide

/-- One technician assignment inside a ServiceItem
(src/unnamed/part_006, schema lines 176-190): the technician's user id,
the item-level credit points received, and the creditsAssigned flag. -/
structure TechAssignment where
  technician : Nat
  creditPoints : ℚ
  creditsAssigned : Bool
deriving DecidableEq, Repr

/-- Lifecycle status of a ServiceItem. -/
inductive ItemStatus where
  | pending
  | inProgress
  | completed
  | cancelled
deriving DecidableEq, Repr

/-- One ServiceItem of a ServiceOrder (part_006, schema lines 165-233):
the fields the credit distribution and the metrics aggregation read. -/
structure ServiceItem where
  id : Nat
  serviceType : Nat
  technicians : List TechAssignment
  status : ItemStatus
  completionTime : Option Int
deriving DecidableEq, Repr

/-- A ServiceOrder (part_006): the serviceItems array. -/
structure Service where
  serviceItems : List ServiceItem
deriving DecidableEq, Repr

/-- A ServiceType document (src/models/ServiceType.js): id and the fixed
creditPoints value split across technicians. -/
structure ServiceTypeDoc where
  id : Nat
  creditPoints : ℚ
deriving DecidableEq, Repr

/-- One serviceCapabilities entry of a User
(src/models/User.js, schema lines 41-65): the per-service-type ledger. -/
structure ServiceCapability where
  serviceType : Nat
  totalCreditsEarned : ℚ
  completedServices : Nat
deriving DecidableEq, Repr

/-- A User document (src/models/User.js): the fields addServiceCredits
touches. -/
structure UserDoc where
  id : Nat
  totalCreditPoints : ℚ
  serviceCapabilities : List ServiceCapability
deriving DecidableEq, Repr

/-- Update of the first serviceCapabilities entry matching the service
type, as performed by the findIndex branch of addServiceCredits
(User.js lines 167-174): earned total increased, completed count
incremented; when no entry matches, the list is unchanged (findIndex
returns -1 and the branch is skipped). -/
def updateCapability (serviceTypeId : Nat) (creditsEarned : ℚ) :
    List ServiceCapability → List ServiceCapability
  | [] => []
  | cap :: rest =>
    if cap.serviceType == serviceTypeId then
      { cap with
        totalCreditsEarned := cap.totalCreditsEarned + creditsEarned,
        completedServices := cap.completedServices + 1 } :: rest
    else cap :: updateCapability serviceTypeId creditsEarned rest

/-- userSchema.methods.addServiceCredits (User.js lines 166-178): update
the first matching per-service-type capability entry, if any, and always
add the earned credits to the lifetime totalCreditPoints. -/
def addServiceCredits (u : UserDoc) (serviceTypeId : Nat) (creditsEarned : ℚ) : UserDoc :=
  { u with
    serviceCapabilities := updateCapability serviceTypeId creditsEarned u.serviceCapabilities,
    totalCreditPoints := u.totalCreditPoints + creditsEarned }

/-- Replace the first user with the given id by applying f, modelling a
findById followed by a mutation and save of that document. A missing id
leaves the store unchanged (the if (user) guard of assignCreditPoints). -/
def updateUser (uid : Nat) (f : UserDoc → UserDoc) : List UserDoc → List UserDoc
  | [] => []
  | u :: rest =>
    if u.id == uid then f u :: rest
    else u :: updateUser uid f rest

/-- The technician loop of assignCreditPoints (part_006 lines 390-402):
for every technician not yet credited, set the item-level creditPoints,
mark creditsAssigned, and apply addServiceCredits to that user in the
store; already-credited technicians are left untouched. Returns the
updated assignment list and user store. -/
def creditTechnicians (pointsPerTechnician : ℚ) (serviceTypeId : Nat) :
    List TechAssignment → List UserDoc → List TechAssignment × List UserDoc
  | [], users => ([], users)
  | t :: ts, users =>
    if t.creditsAssigned then
      let r := creditTechnicians pointsPerTechnician serviceTypeId ts users
      (t :: r.1, r.2)
    else
      let t1 := { t with creditPoints := pointsPerTechnician, creditsAssigned := true }
      let users1 := updateUser t.technician
        (fun u => addServiceCredits u serviceTypeId pointsPerTechnician) users
      let r := creditTechnicians pointsPerTechnician serviceTypeId ts users1
      (t1 :: r.1, r.2)

/-- Replace the first service item with the given id. -/
def setServiceItem (itemId : Nat) (newItem : ServiceItem) :
    List ServiceItem → List ServiceItem
  | [] => []
  | it :: rest =>
    if it.id == itemId then newItem :: rest
    else it :: setServiceItem itemId newItem rest

/-- serviceSchema.methods.assignCreditPoints (part_006 lines 361-406):
find the service item; fail when it is missing or not completed; succeed
without side effects when every technician already has creditsAssigned;
fail when the service type cannot be resolved; otherwise split the
service type's creditPoints evenly over the technicians and credit each
not-yet-credited one. Returns the boolean result together with the
updated service and user store. -/
def assignCreditPoints (s : Service) (users : List UserDoc)
    (serviceTypes : List ServiceTypeDoc) (serviceItemId : Nat) :
    Bool × Service × List UserDoc :=
  match s.serviceItems.find? (fun it => it.id == serviceItemId) with
  | none => (false, s, users)
  | some item =>
    if item.status ≠ ItemStatus.completed then (false, s, users)
    else if item.technicians.all (fun t => t.creditsAssigned) then (true, s, users)
    else
      match serviceTypes.find? (fun st => st.id == item.serviceType) with
      | none => (false, s, users)
      | some serviceType =>
        let pointsPerTechnician := serviceType.creditPoints / (item.technicians.length : ℚ)
        let r := creditTechnicians pointsPerTechnician serviceType.id item.technicians users
        (true,
         { s with serviceItems := setServiceItem serviceItemId { item with technicians := r.1 } s.serviceItems },
         r.2)

/-- When every technician in the list is still uncredited, the
technician loop rewrites each assignment to the per-technician share
with creditsAssigned set. -/
theorem creditTechnicians_fst_of_uncredited (p : ℚ) (stId : Nat) :
    ∀ (ts : List TechAssignment) (users : List UserDoc),
    (∀ t ∈ ts, t.creditsAssigned = false) →
    (creditTechnicians p stId ts users).1 =
      ts.map (fun t => { t with creditPoints := p, creditsAssigned := true }) := by
  intro ts
  induction ts with
  | nil => intro users _; rfl
  | cons t ts ih =>
    intro users hall
    have ht : t.creditsAssigned = false := hall t (List.mem_cons_self t ts)
    rw [creditTechnicians, if_neg (by simp [ht])]
    simp only [List.map_cons]
    congr 1
    exact ih _ (fun x hx => hall x (List.mem_cons_of_mem t hx))

/-- Replacing the first item with a matching id makes a subsequent
lookup by that id return the replacement, provided the replacement keeps
the id and some item with the id was present. -/
theorem find?_setServiceItem (itemId : Nat) (newItem : ServiceItem) (hid : newItem.id = itemId) :
    ∀ (items : List ServiceItem) (item : ServiceItem),
    items.find? (fun it => it.id == itemId) = some item →
    (setServiceItem itemId newItem items).find? (fun it => it.id == itemId) = some newItem := by
  intro items
  induction items with
  | nil => intro item h; simp [List.find?] at h
  | cons it rest ih =>
    intro item h
    by_cases hm : it.id == itemId
    · rw [setServiceItem, if_pos hm]
      simp [List.find?, hid]
    · rw [setServiceItem, if_neg hm]
      rw [List.find?_cons_of_neg _ (by simpa using hm)] at h
      rw [List.find?_cons_of_neg _ (by simpa using hm)]
      exact ih item h

/-- C2: distributing credit points over a completed service item with
technicians none of whom is yet credited succeeds and gives every
technician the even share creditPoints / technicianCount with
creditsAssigned set, so the shares sum to the service type's full
creditPoints value. -/
theorem assignCreditPoints_distributes_evenly (s : Service) (users : List UserDoc)
    (serviceTypes : List ServiceTypeDoc) (itemId : Nat) (item : ServiceItem)
    (st : ServiceTypeDoc)
    (hfind : s.serviceItems.find? (fun it => it.id == itemId) = some item)
    (hstatus : item.status = ItemStatus.completed)
    (huncredited : ∀ t ∈ item.technicians, t.creditsAssigned = false)
    (hne : item.technicians ≠ [])
    (hst : serviceTypes.find? (fun x => x.id == item.serviceType) = some st) :
    (assignCreditPoints s users serviceTypes itemId).1 = true ∧
    ∃ item2,
      ((assignCreditPoints s users serviceTypes itemId).2.1.serviceItems.find?
        (fun it => it.id == itemId) = some item2) ∧
      (∀ t ∈ item2.technicians,
        t.creditPoints = st.creditPoints / (item.technicians.length : ℚ) ∧
        t.creditsAssigned = true) ∧
      (item2.technicians.map (fun t => t.creditPoints)).sum = st.creditPoints := by
  have hallfalse : item.technicians.all (fun t => t.creditsAssigned) = false := by
    obtain ⟨t0, ts0, hcons⟩ := List.exists_cons_of_ne_nil hne
    rw [hcons]
    simp [huncredited t0 (by rw [hcons]; exact List.mem_cons_self t0 ts0)]
  have hid : item.id = itemId := by
    have := List.find?_some hfind
    simpa using this
  simp only [assignCreditPoints, hfind]
  rw [if_neg (by simp [hstatus]), if_neg (by simp [hallfalse]), hst]
  set p : ℚ := st.creditPoints / (item.technicians.length : ℚ) with hp
  set item2 : ServiceItem :=
    { item with technicians :=
        (creditTechnicians p st.id item.technicians users).1 } with hitem2
  refine ⟨rfl, item2, ?_, ?_, ?_⟩
  · exact find?_setServiceItem itemId item2 hid s.serviceItems item hfind
  · intro t ht
    rw [hitem2] at ht
    simp only [creditTechnicians_fst_of_uncredited p st.id item.technicians users huncredited,
      List.mem_map] at ht
    obtain ⟨t0, _, rfl⟩ := ht
    exact ⟨rfl, rfl⟩
  · rw [hitem2]
    simp only [creditTechnicians_fst_of_uncredited p st.id item.technicians users huncredited]
    rw [List.map_map]
    have hfun :
        ((fun t : TechAssignment => t.creditPoints) ∘
          (fun t => { t with creditPoints := p, creditsAssigned := true })) =
          (fun _ : TechAssignment => p) := rfl
    rw [hfun, List.map_const', List.sum_replicate, nsmul_eq_mul, hp]
    have hlen0 : item.technicians.length ≠ 0 := by
      simpa [List.length_eq_zero] using hne
    have hlen : (item.technicians.length : ℚ) ≠ 0 := Nat.cast_ne_zero.mpr hlen0
    field_simp

/-- C3: invoking the distribution on a completed service item whose
technicians all already have creditsAssigned returns success and leaves
the service and every user unchanged. -/
theorem assignCreditPoints_idempotent (s : Service) (users : List UserDoc)
    (serviceTypes : List ServiceTypeDoc) (itemId : Nat) (item : ServiceItem)
    (hfind : s.serviceItems.find? (fun it => it.id == itemId) = some item)
    (hstatus : item.status = ItemStatus.completed)
    (hall : ∀ t ∈ item.technicians, t.creditsAssigned = true) :
    assignCreditPoints s users serviceTypes itemId = (true, s, users) := by
  simp only [assignCreditPoints, hfind]
  rw [if_neg (by simp [hstatus]), if_pos (by simpa [List.all_eq_true] using hall)]

/-- A completed service item worth 10 credit points with two uncredited
technicians, the spec's worked example. -/
def exItemC2 : ServiceItem :=
  { id := 5, serviceType := 7,
    technicians := [⟨1, 0, false⟩, ⟨2, 0, false⟩],
    status := ItemStatus.completed, completionTime := some 50 }

/-- The service order holding exItemC2. -/
def exServiceC2 : Service := ⟨[exItemC2]⟩

/-- User store for the distribution example. -/
def exUsersC2 : List UserDoc := [⟨1, 0, []⟩, ⟨2, 0, []⟩]

/-- Service type 7 worth 10 credit points. -/
def exServiceTypesC2 : List ServiceTypeDoc := [⟨7, 10⟩]

/-- C2 witness: on the concrete example (10 credit points, two
technicians) the general theorem applies, each technician receives the
share 10 / 2 = 5, and the shares sum to 10. -/
theorem assignCreditPoints_distributes_evenly_witness :
    ((assignCreditPoints exServiceC2 exUsersC2 exServiceTypesC2 5).1 = true ∧
      ∃ item2,
        ((assignCreditPoints exServiceC2 exUsersC2 exServiceTypesC2 5).2.1.serviceItems.find?
          (fun it => it.id == 5) = some item2) ∧
        (∀ t ∈ item2.technicians,
          t.creditPoints = (10 : ℚ) / ((2 : Nat) : ℚ) ∧ t.creditsAssigned = true) ∧
        (item2.technicians.map (fun t => t.creditPoints)).sum = 10) ∧
      (10 : ℚ) / ((2 : Nat) : ℚ) = 5 := by
  constructor
  · exact assignCreditPoints_distributes_evenly exServiceC2 exUsersC2 exServiceTypesC2 5
      exItemC2 ⟨7, 10⟩ rfl rfl (by decide) (by decide) rfl
  · norm_num

/-- A completed service item whose two technicians are both already
credited with 5 points each. -/
def exItemC3 : ServiceItem :=
  { id := 6, serviceType := 7,
    technicians := [⟨1, 5, true⟩, ⟨2, 5, true⟩],
    status := ItemStatus.completed, completionTime := some 50 }

/-- The service order holding exItemC3. -/
def exServiceC3 : Service := ⟨[exItemC3]⟩

/-- C3 witness: re-invoking the distribution on the fully credited
concrete item returns true and the exact same service and user store. -/
theorem assignCreditPoints_idempotent_witness :
    assignCreditPoints exServiceC3 exUsersC2 exServiceTypesC2 6 =
      (true, exServiceC3, exUsersC2) :=
  assignCreditPoints_idempotent exServiceC3 exUsersC2 exServiceTypesC2 6 exItemC3
    rfl rfl (by decide)

/-- Total credits earned recorded for one service type across a user's
capability entries (the per-service-type earned total of the spec). -/
def specPerTypeEarned (u : UserDoc) (serviceTypeId : Nat) : ℚ :=
  ((u.serviceCapabilities.filter (fun c => c.serviceType == serviceTypeId)).map
    (fun c => c.totalCreditsEarned)).sum

/-- Completed-service count recorded for one service type across a
user's capability entries. -/
def specPerTypeCount (u : UserDoc) (serviceTypeId : Nat) : Nat :=
  ((u.serviceCapabilities.filter (fun c => c.serviceType == serviceTypeId)).map
    (fun c => c.completedServices)).sum

/-- When no capability entry matches the service type, updateCapability
is the identity (findIndex returns -1 and the update branch is
skipped). -/
theorem updateCapability_of_no_entry (stId : Nat) (p : ℚ) :
    ∀ caps : List ServiceCapability,
    caps.any (fun c => c.serviceType == stId) = false →
    updateCapability stId p caps = caps := by
  intro caps
  induction caps with
  | nil => intro _; rfl
  | cons cap rest ih =>
    intro h
    rw [List.any_cons, Bool.or_eq_false_iff] at h
    rw [updateCapability, if_neg (by simp [h.1]), ih h.2]

/-- When some capability entry matches the service type, updating the
first match raises the per-type earned sum by exactly the earned
credits and the per-type completed count by one. -/
theorem updateCapability_of_entry (stId : Nat) (p : ℚ) :
    ∀ caps : List ServiceCapability,
    caps.any (fun c => c.serviceType == stId) = true →
    (((updateCapability stId p caps).filter (fun c => c.serviceType == stId)).map
        (fun c => c.totalCreditsEarned)).sum =
      ((caps.filter (fun c => c.serviceType == stId)).map
        (fun c => c.totalCreditsEarned)).sum + p ∧
    (((updateCapability stId p caps).filter (fun c => c.serviceType == stId)).map
        (fun c => c.completedServices)).sum =
      ((caps.filter (fun c => c.serviceType == stId)).map
        (fun c => c.completedServices)).sum + 1 := by
  intro caps
  induction caps with
  | nil => intro h; simp at h
  | cons cap rest ih =>
    intro h
    by_cases hm : cap.serviceType == stId
    · rw [updateCapability, if_pos hm]
      rw [List.filter_cons_of_pos (by simpa using hm), List.filter_cons_of_pos (by simpa using hm)]
      constructor
      · simp only [List.map_cons, List.sum_cons]
        ring
      · simp only [List.map_cons, List.sum_cons]
        omega
    · rw [List.any_cons, Bool.or_eq_true_iff] at h
      rcases h with h | h
      · exact absurd h (by simpa using hm)
      · rw [updateCapability, if_neg hm]
        rw [List.filter_cons_of_neg (by simpa using hm), List.filter_cons_of_neg (by simpa using hm)]
        exact ih h

/-- C10 (amended): addServiceCredits always adds the earned credits to
the lifetime total; the per-service-type earned total and completed
count are updated only when the user already has a capability entry for
that service type, and are left untouched otherwise. -/
theorem addServiceCredits_ledger_updates (u : UserDoc) (stId : Nat) (p : ℚ) :
    (addServiceCredits u stId p).totalCreditPoints = u.totalCreditPoints + p ∧
    (u.serviceCapabilities.any (fun c => c.serviceType == stId) = true →
      specPerTypeEarned (addServiceCredits u stId p) stId = specPerTypeEarned u stId + p ∧
      specPerTypeCount (addServiceCredits u stId p) stId = specPerTypeCount u stId + 1) ∧
    (u.serviceCapabilities.any (fun c => c.serviceType == stId) = false →
      (addServiceCredits u stId p).serviceCapabilities = u.serviceCapabilities) := by
  refine ⟨rfl, ?_, ?_⟩
  · intro h
    exact updateCapability_of_entry stId p u.serviceCapabilities h
  · intro h
    exact updateCapability_of_no_entry stId p u.serviceCapabilities h

/-- A user holding a capability entry for service type 7 with 2 earned
credits over 3 completed services. -/
def exUserC10 : UserDoc := ⟨1, 10, [⟨7, 2, 3⟩]⟩

/-- C10 witness: crediting 5 points for service type 7 to the concrete
user raises the lifetime total to 15, the per-type earned total from 2
to 7 and the per-type completed count from 3 to 4. -/
theorem addServiceCredits_ledger_updates_witness :
    (addServiceCredits exUserC10 7 5).totalCreditPoints = exUserC10.totalCreditPoints + 5 ∧
    specPerTypeEarned (addServiceCredits exUserC10 7 5) 7 = specPerTypeEarned exUserC10 7 + 5 ∧
    specPerTypeCount (addServiceCredits exUserC10 7 5) 7 = specPerTypeCount exUserC10 7 + 1 :=
  ⟨(addServiceCredits_ledger_updates exUserC10 7 5).1,
   ((addServiceCredits_ledger_updates exUserC10 7 5).2.1 (by decide)).1,
   ((addServiceCredits_ledger_updates exUserC10 7 5).2.1 (by decide)).2⟩

/-- A completed service item of type 7 with one uncredited technician
whose user document has no capability entry at all. -/
def exItemC10 : ServiceItem :=
  { id := 5, serviceType := 7, technicians := [⟨1, 0, false⟩],
    status := ItemStatus.completed, completionTime := some 50 }

/-- The service order holding exItemC10. -/
def exServiceC10 : Service := ⟨[exItemC10]⟩

/-- C10 counterexample: distributing 5 credit points of service type 7
to the technician whose user record has no serviceCapabilities entry for
type 7 adds 5 to the lifetime total but leaves the per-service-type
ledger empty: the per-type earned total does not increase, refuting the
claim that every credited technician's per-type totals are updated. -/
theorem addServiceCredits_missing_entry_counterexample :
    (assignCreditPoints exServiceC10 [⟨1, 0, []⟩] [⟨7, 5⟩] 5).2.2 = [⟨1, 5, []⟩] ∧
    ¬ specPerTypeEarned (⟨1, 5, []⟩ : UserDoc) 7 = specPerTypeEarned (⟨1, 0, []⟩ : UserDoc) 7 + 5 := by
  constructor
  · simp [assignCreditPoints, exServiceC10, exItemC10, creditTechnicians, updateUser,
      addServiceCredits, updateCapability, setServiceItem, List.find?]
  · simp [specPerTypeEarned]

/-- One entry of the serviceTypeBreakdown produced by
calculatePerformanceMetrics (IncentiveCalculationService.js lines
179-192). -/
structure BreakdownEntry where
  serviceType : Nat
  count : Nat
  creditPoints : ℚ
deriving DecidableEq, Repr

/-- The metrics object of calculatePerformanceMetrics
(IncentiveCalculationService.js lines 154-159). -/
structure Metrics where
  totalCreditPoints : ℚ
  completedServices : Nat
  targetAchievementPercentage : ℚ
  serviceTypeBreakdown : List BreakdownEntry
deriving DecidableEq, Repr

/-- Update of the first breakdown entry matching the service type:
count incremented, creditPoints accumulated. -/
def updateBreakdownEntry (stId : Nat) (credits : ℚ) :
    List BreakdownEntry → List BreakdownEntry
  | [] => []
  | e :: rest =>
    if e.serviceType == stId then
      { e with count := e.count + 1, creditPoints := e.creditPoints + credits } :: rest
    else e :: updateBreakdownEntry stId credits rest

/-- The breakdown accumulation of calculatePerformanceMetrics (lines
179-192): update the existing entry for the service type if present,
else push a new entry with count 1. -/
def addToBreakdown (entries : List BreakdownEntry) (stId : Nat) (credits : ℚ) :
    List BreakdownEntry :=
  if entries.any (fun e => e.serviceType == stId) then
    updateBreakdownEntry stId credits entries
  else entries ++ [⟨stId, 1, credits⟩]

/-- Per-item step of calculatePerformanceMetrics (lines 163-194): when
the staff member appears among the item's technicians (first matching
entry) and the item is completed, accumulate that entry's creditPoints,
increment the completed count and update the breakdown; otherwise leave
the metrics unchanged. -/
def processItem (staffId : Nat) (m : Metrics) (item : ServiceItem) : Metrics :=
  match item.technicians.find? (fun t => t.technician == staffId) with
  | some technicianInfo =>
    if item.status = ItemStatus.completed then
      { m with
        totalCreditPoints := m.totalCreditPoints + technicianInfo.creditPoints,
        completedServices := m.completedServices + 1,
        serviceTypeBreakdown :=
          addToBreakdown m.serviceTypeBreakdown item.serviceType technicianInfo.creditPoints }
    else m
  | none => m

/-- calculatePerformanceMetrics (IncentiveCalculationService.js lines
152-204): fold the per-item step over every item of every given
service, then set targetAchievementPercentage = (total / target) * 100
only when the monthly target's credit-point target is strictly
positive, leaving the initial 0 otherwise. -/
def calculatePerformanceMetrics (staffId : Nat) (completedServices : List Service)
    (monthlyTarget : MonthlyTarget) : Metrics :=
  let m := completedServices.foldl
    (fun acc svc => svc.serviceItems.foldl (processItem staffId) acc)
    ⟨0, 0, 0, []⟩
  if 0 < monthlyTarget.targetCreditPoints then
    { m with targetAchievementPercentage :=
        m.totalCreditPoints / monthlyTarget.targetCreditPoints * 100 }
  else m

/-- The MongoDB selection of getStaffCompletedServices
(IncentiveCalculationService.js lines 132-136). The three conditions on
paths into the serviceItems array are document-level: each condition is
satisfied when SOME array element satisfies it, and, for the range
condition on completionTime, each bound may even be met by a different
element. No condition requires one single element to satisfy all of
them. -/
def serviceMatchesQuery (staffId : Nat) (startDate endDate : Int) (s : Service) : Bool :=
  (s.serviceItems.any (fun it => it.technicians.any (fun t => t.technician == staffId))) &&
  (s.serviceItems.any (fun it => decide (it.status = ItemStatus.completed))) &&
  (s.serviceItems.any (fun it =>
    match it.completionTime with
    | some d => decide (startDate ≤ d)
    | none => false)) &&
  (s.serviceItems.any (fun it =>
    match it.completionTime with
    | some d => decide (d ≤ endDate)
    | none => false))

/-- getStaffCompletedServices (lines 130-143): return every service
document matching the query. -/
def getStaffCompletedServices (db : List Service) (staffId : Nat)
    (startDate endDate : Int) : List Service :=
  db.filter (serviceMatchesQuery staffId startDate endDate)

/-- An item is counted by the aggregation iff the staff member appears
among its technicians and its status is completed (the two per-item
conditions the in-memory loop checks). -/
def itemCounted (staffId : Nat) (it : ServiceItem) : Bool :=
  (it.technicians.find? (fun t => t.technician == staffId)).isSome &&
  decide (it.status = ItemStatus.completed)

/-- Credit-point contribution of an item to the aggregation: the first
matching technician entry's creditPoints when the item is counted. -/
def itemContribution (staffId : Nat) (it : ServiceItem) : Option ℚ :=
  match it.technicians.find? (fun t => t.technician == staffId) with
  | some ti => if it.status = ItemStatus.completed then some ti.creditPoints else none
  | none => none

/-- The per-item fold adds one to the completed count per counted item,
adds each counted item's contribution to the credit total, and never
touches the achievement percentage. -/
theorem foldl_processItem_spec (staffId : Nat) :
    ∀ (items : List ServiceItem) (m : Metrics),
    (items.foldl (processItem staffId) m).completedServices
        = m.completedServices + items.countP (itemCounted staffId) ∧
    (items.foldl (processItem staffId) m).totalCreditPoints
        = m.totalCreditPoints + (items.filterMap (itemContribution staffId)).sum ∧
    (items.foldl (processItem staffId) m).targetAchievementPercentage
        = m.targetAchievementPercentage := by
  intro items
  induction items with
  | nil => intro m; simp
  | cons it rest ih =>
    intro m
    rw [List.foldl_cons]
    obtain ⟨ih1, ih2, ih3⟩ := ih (processItem staffId m it)
    rw [ih1, ih2, ih3]
    cases hf : it.technicians.find? (fun t => t.technician == staffId) with
    | none =>
      refine ⟨?_, ?_, ?_⟩ <;>
        simp [processItem, hf, itemCounted, itemContribution, List.countP_cons,
          List.filterMap_cons]
    | some ti =>
      by_cases hs : it.status = ItemStatus.completed
      · refine ⟨?_, ?_, ?_⟩
        · simp only [processItem, hf, if_pos hs, List.countP_cons, itemCounted, hf,
            Option.isSome_some, Bool.true_and, decide_eq_true hs, if_pos]
          omega
        · simp only [processItem, hf, if_pos hs, List.filterMap_cons, itemContribution, hf,
            if_pos hs, List.sum_cons]
          ring
        · simp [processItem, hf, if_pos hs]
      · refine ⟨?_, ?_, ?_⟩ <;>
          simp [processItem, hf, hs, itemCounted, itemContribution, List.countP_cons,
            List.filterMap_cons]

/-- The double fold over services flattens to a fold over all their
items. -/
theorem metrics_double_fold_spec (staffId : Nat) :
    ∀ (svcs : List Service) (m : Metrics),
    (svcs.foldl (fun acc svc => svc.serviceItems.foldl (processItem staffId) acc) m).completedServices
        = m.completedServices + (svcs.flatMap (fun s => s.serviceItems)).countP (itemCounted staffId) ∧
    (svcs.foldl (fun acc svc => svc.serviceItems.foldl (processItem staffId) acc) m).totalCreditPoints
        = m.totalCreditPoints + ((svcs.flatMap (fun s => s.serviceItems)).filterMap (itemContribution staffId)).sum ∧
    (svcs.foldl (fun acc svc => svc.serviceItems.foldl (processItem staffId) acc) m).targetAchievementPercentage
        = m.targetAchievementPercentage := by
  intro svcs
  induction svcs with
  | nil => intro m; simp
  | cons svc rest ih =>
    intro m
    rw [List.foldl_cons]
    obtain ⟨ih1, ih2, ih3⟩ := ih (svc.serviceItems.foldl (processItem staffId) m)
    obtain ⟨h1, h2, h3⟩ := foldl_processItem_spec staffId svc.serviceItems m
    refine ⟨?_, ?_, ?_⟩
    · rw [ih1, h1]
      simp [List.countP_append]
      omega
    · rw [ih2, h2]
      simp [List.filterMap_append]
      ring
    · rw [ih3, h3]

/-- C9 (amended): over the services selected by the document-level
query, the aggregated completed count is exactly the number of items
whose technicians include the staff member and whose status is
completed, and the credit total is exactly the sum of those items'
first-matching technician contributions. The period bounds act only in
the document-level selection, not per item. -/
theorem calculatePerformanceMetrics_counts_exactly (staffId : Nat) (db : List Service)
    (startDate endDate : Int) (target : MonthlyTarget) :
    (calculatePerformanceMetrics staffId
        (getStaffCompletedServices db staffId startDate endDate) target).completedServices
      = ((getStaffCompletedServices db staffId startDate endDate).flatMap
          (fun s => s.serviceItems)).countP (itemCounted staffId) ∧
    (calculatePerformanceMetrics staffId
        (getStaffCompletedServices db staffId startDate endDate) target).totalCreditPoints
      = (((getStaffCompletedServices db staffId startDate endDate).flatMap
          (fun s => s.serviceItems)).filterMap (itemContribution staffId)).sum := by
  obtain ⟨h1, h2, h3⟩ := metrics_double_fold_spec staffId
    (getStaffCompletedServices db staffId startDate endDate) ⟨0, 0, 0, []⟩
  unfold calculatePerformanceMetrics
  by_cases hpos : 0 < target.targetCreditPoints
  · rw [if_pos hpos]
    exact ⟨by rw [h1]; simp, by rw [h2]; simp⟩
  · rw [if_neg hpos]
    exact ⟨by rw [h1]; simp, by rw [h2]; simp⟩

/-- A completed service item of the tracked staff member (id 1) whose
completion time 100 lies outside the queried period. -/
def exItemOutC9 : ServiceItem :=
  { id := 1, serviceType := 7, technicians := [⟨1, 4, true⟩],
    status := ItemStatus.completed, completionTime := some 100 }

/-- A completed service item of a different technician whose completion
time 5 lies inside the queried period. -/
def exItemInC9 : ServiceItem :=
  { id := 2, serviceType := 8, technicians := [⟨2, 3, true⟩],
    status := ItemStatus.completed, completionTime := some 5 }

/-- A service order holding both items. -/
def exSvcC9 : Service := ⟨[exItemOutC9, exItemInC9]⟩

/-- A monthly target used only to close the metrics computation. -/
def exTargetC9 : MonthlyTarget := ⟨1, 2024, 1, 0, 0, [], []⟩

/-- C9 counterexample: querying period 1..10 for staff 1 still selects
the order (the period bound is met by the other technician's item), and
the aggregation then counts staff 1's item completed at time 100 —
although no item of staff 1 has a completion time inside the period.
This refutes the claim that every counted item's completion time falls
within the inclusive period bounds. -/
theorem metrics_period_not_enforced_counterexample :
    (calculatePerformanceMetrics 1 (getStaffCompletedServices [exSvcC9] 1 1 10)
        exTargetC9).completedServices = 1 ∧
    (∀ it ∈ exSvcC9.serviceItems,
      (it.technicians.any (fun t => t.technician == 1)) = true →
      ∀ d, it.completionTime = some d → ¬(1 ≤ d ∧ d ≤ 10)) := by
  constructor
  · decide
  · decide

/-- The bonusAmount of the last threshold in ascending order, zero when
there are none: what an Infinity achievement percentage resolves to. -/
def specLastSortedBonus (ts : List BonusThreshold) : ℚ :=
  match (sortThresholds ts).getLast? with
  | some t => t.bonusAmount
  | none => 0

/-- C8 (amended): with a zero credit-point target, the aggregation's
guarded percentage is exactly 0, but calculateBonus has no guard: its
division by zero produces Infinity for positive achieved points (so
every threshold qualifies and the last sorted threshold's bonus is
paid), and NaN for zero achieved points (so no threshold qualifies and
the bonus is 0). -/
theorem zero_target_zero_percentage_but_unguarded_bonus :
    (∀ (staffId : Nat) (services : List Service) (target : MonthlyTarget),
      target.targetCreditPoints = 0 →
      (calculatePerformanceMetrics staffId services target).targetAchievementPercentage = 0) ∧
    (∀ (target : MonthlyTarget) (achieved : ℚ), target.targetCreditPoints = 0 →
      (0 < achieved →
        (calculateBonus target achieved).1 = JSNum.posInf ∧
        (calculateBonus target achieved).2 = specLastSortedBonus target.bonusThresholds) ∧
      (achieved = 0 →
        (calculateBonus target achieved).1 = JSNum.nan ∧
        (calculateBonus target achieved).2 = 0)) := by
  constructor
  · intro staffId services target h
    obtain ⟨_, _, h3⟩ := metrics_double_fold_spec staffId services ⟨0, 0, 0, []⟩
    unfold calculatePerformanceMetrics
    rw [if_neg (by rw [h]; exact lt_irrefl 0), h3]
  · intro target achieved h
    constructor
    · intro hpos
      have hpct : jsTimes100 (jsDivQ achieved target.targetCreditPoints) = JSNum.posInf := by
        rw [h, jsDivQ, if_pos rfl, if_pos hpos]
        rfl
      constructor
      · exact hpct
      · show bonusLoop _ (sortThresholds target.bonusThresholds) 0 = _
        rw [hpct, bonusLoop_eq _ _ _ (sorted_sortThresholds target.bonusThresholds)]
        have hall : (sortThresholds target.bonusThresholds).filter
            (fun x => jsGeQ JSNum.posInf x.achievement) =
            sortThresholds target.bonusThresholds := by
          rw [List.filter_eq_self]
          intro x _
          rfl
        rw [hall, specLastSortedBonus]
    · intro hzero
      have hpct : jsTimes100 (jsDivQ achieved target.targetCreditPoints) = JSNum.nan := by
        rw [h, hzero, jsDivQ, if_pos rfl, if_neg (lt_irrefl 0), if_neg (lt_irrefl 0)]
        rfl
      constructor
      · exact hpct
      · show bonusLoop _ (sortThresholds target.bonusThresholds) 0 = _
        rw [hpct, bonusLoop_eq _ _ _ (sorted_sortThresholds target.bonusThresholds)]
        have hnone : (sortThresholds target.bonusThresholds).filter
            (fun x => jsGeQ JSNum.nan x.achievement) = [] := by
          rw [List.filter_eq_nil_iff]
          intro x _
          simp [jsGeQ]
        rw [hnone]
        rfl

/-- The spec's example thresholds on a target whose targetCreditPoints
is zero. -/
def exTargetC8 : MonthlyTarget :=
  { month := 1, year := 2024, category := 1, targetCreditPoints := 0,
    targetCompletedServices := 10,
    bonusThresholds := [⟨50, 200⟩, ⟨10, 50⟩, ⟨90, 500⟩],
    serviceTypeTargets := [] }

/-- C8 counterexample: at a zero target with 60 achieved points the
achievement percentage computed by calculateBonus is Infinity — not 0 —
and the resolved bonus is 500, the highest tier, not the bonus of the
floor rule at 0 percent (which would be 0 as every threshold exceeds
0). -/
theorem calculateBonus_zero_target_counterexample :
    (calculateBonus exTargetC8 60).1 = JSNum.posInf ∧
    (calculateBonus exTargetC8 60).1 ≠ JSNum.num 0 ∧
    (calculateBonus exTargetC8 60).2 = 500 := by
  refine ⟨?_, ?_, ?_⟩ <;> decide

/-- C8 witness: the amended theorem applied at concrete inputs — empty
service list and the zero-target example — gives percentage 0 from the
aggregation, and Infinity with bonus 500 from calculateBonus. -/
theorem zero_target_zero_percentage_but_unguarded_bonus_witness :
    (calculatePerformanceMetrics 1 [] exTargetC8).targetAchievementPercentage = 0 ∧
    (calculateBonus exTargetC8 60).1 = JSNum.posInf ∧
    (calculateBonus exTargetC8 60).2 = specLastSortedBonus exTargetC8.bonusThresholds ∧
    specLastSortedBonus exTargetC8.bonusThresholds = 500 :=
  ⟨zero_target_zero_percentage_but_unguarded_bonus.1 1 [] exTargetC8 rfl,
   ((zero_target_zero_percentage_but_unguarded_bonus.2 exTargetC8 60 rfl).1 (by decide)).1,
   ((zero_target_zero_percentage_but_unguarded_bonus.2 exTargetC8 60 rfl).1 (by decide)).2,
   by decide⟩

/-- An arithmetic formula over named variables: the expression grammar
of spec section 4.1 (numeric literals, identifiers and the four
operators) that a formulaDefinition string denotes once parsed. -/
inductive Formula where
  | num : ℚ → Formula
  | var : String → Formula
  | add : Formula → Formula → Formula
  | sub : Formula → Formula → Formula
  | mul : Formula → Formula → Formula
  | div : Formula → Formula → Formula
deriving DecidableEq, Repr

/-- Modelled from the spec: mathjs.evaluate, the external expression
evaluation library used by calculateBaseIncentive
(IncentiveCalculationService.js line 221), which is not part of this
repository. It evaluates the arithmetic expression against the supplied
scope only; an identifier absent from the scope makes evaluation fail
with an Undefined symbol error (it does not consult policy defaults).
Numbers are exact rationals. -/
def mathjsEvaluate : Formula → List (String × ℚ) → Except String ℚ
  | Formula.num q, _ => Except.ok q
  | Formula.var x, scope =>
    match scope.lookup x with
    | some v => Except.ok v
    | none => Except.error ("Undefined symbol " ++ x)
  | Formula.add a b, scope => do
    let va ← mathjsEvaluate a scope
    let vb ← mathjsEvaluate b scope
    Except.ok (va + vb)
  | Formula.sub a b, scope => do
    let va ← mathjsEvaluate a scope
    let vb ← mathjsEvaluate b scope
    Except.ok (va - vb)
  | Formula.mul a b, scope => do
    let va ← mathjsEvaluate a scope
    let vb ← mathjsEvaluate b scope
    Except.ok (va * vb)
  | Formula.div a b, scope => do
    let va ← mathjsEvaluate a scope
    let vb ← mathjsEvaluate b scope
    Except.ok (va / vb)

/-- One declared variable of an IncentivePolicy
(src/models/IncentivePolicy.js, schema lines 21-35). -/
structure PolicyVariable where
  name : String
  defaultValue : ℚ
deriving DecidableEq, Repr

/-- The IncentivePolicy document fields the formula evaluation reads:
the parsed formulaDefinition and the declared variable list (the source
field is called variables, a reserved word here). -/
structure IncentivePolicyDoc where
  formulaDefinition : Formula
  declaredVariables : List PolicyVariable
deriving DecidableEq, Repr

/-- calculateBaseIncentive (IncentiveCalculationService.js lines
212-228): evaluate the policy formula over the variable scope; floor a
successful result at zero; return 0 on any evaluation failure (the
catch branch). -/
def calculateBaseIncentive (vars : List (String × ℚ)) (policy : IncentivePolicyDoc) : ℚ :=
  match mathjsEvaluate policy.formulaDefinition vars with
  | Except.ok result => max 0 result
  | Except.error _ => 0

/-- C6: the base-incentive computation is total (the try/catch never
lets an evaluation failure escape), returns max(0, r) on a successful
evaluation to r, returns 0 on any evaluation failure, and is never
negative. -/
theorem calculateBaseIncentive_floored_and_total (vars : List (String × ℚ))
    (policy : IncentivePolicyDoc) :
    0 ≤ calculateBaseIncentive vars policy ∧
    (∀ r, mathjsEvaluate policy.formulaDefinition vars = Except.ok r →
      calculateBaseIncentive vars policy = max 0 r) ∧
    (∀ e, mathjsEvaluate policy.formulaDefinition vars = Except.error e →
      calculateBaseIncentive vars policy = 0) := by
  refine ⟨?_, ?_, ?_⟩
  · unfold calculateBaseIncentive
    cases mathjsEvaluate policy.formulaDefinition vars with
    | ok r => exact le_max_left 0 r
    | error e => exact le_refl 0
  · intro r hr
    unfold calculateBaseIncentive
    rw [hr]
  · intro e he
    unfold calculateBaseIncentive
    rw [he]

/-- The spec's example formula baseSalary + totalCreditPoints *
baseIncentiveRate. -/
def exFormulaC6 : Formula :=
  Formula.add (Formula.var "baseSalary")
    (Formula.mul (Formula.var "totalCreditPoints") (Formula.var "baseIncentiveRate"))

/-- The spec's example scope. -/
def exScopeC6 : List (String × ℚ) :=
  [("baseSalary", 1000), ("totalCreditPoints", 40), ("baseIncentiveRate", 2)]

/-- A policy carrying the example formula and no declared defaults. -/
def exPolicyC6 : IncentivePolicyDoc := ⟨exFormulaC6, []⟩

/-- C6 witness: on the example formula and scope the base incentive is
1000 + 40 * 2 = 1080, and with an empty scope (evaluation failure) the
base incentive degrades to 0. -/
theorem calculateBaseIncentive_floored_and_total_witness :
    calculateBaseIncentive exScopeC6 exPolicyC6 = 1080 ∧
    calculateBaseIncentive [] exPolicyC6 = 0 := by
  constructor
  · have h := (calculateBaseIncentive_floored_and_total exScopeC6 exPolicyC6).2.1
      (1000 + 40 * 2) rfl
    rw [h]
    norm_num
  · exact (calculateBaseIncentive_floored_and_total [] exPolicyC6).2.2
      ("Undefined symbol baseSalary") rfl

/-- A policy whose formula references x, with a declared default x = 5
(the situation the defaults mechanism is meant to cover). -/
def exPolicyC7 : IncentivePolicyDoc :=
  ⟨Formula.add (Formula.var "x") (Formula.num 1), [⟨"x", 5⟩]⟩

/-- C7: the base-incentive evaluation never consults the policy's
declared defaults — its result is independent of them — so a formula
referencing a variable absent from the scope fails with an Undefined
symbol error that the catch turns into 0, although substituting the
declared default x = 5 would have evaluated to 6. -/
theorem calculateBaseIncentive_ignores_policy_defaults :
    (∀ (f : Formula) (scope : List (String × ℚ)) (dv : List PolicyVariable),
      calculateBaseIncentive scope ⟨f, dv⟩ = calculateBaseIncentive scope ⟨f, []⟩) ∧
    calculateBaseIncentive [] exPolicyC7 = 0 ∧
    mathjsEvaluate exPolicyC7.formulaDefinition [] = Except.error "Undefined symbol x" ∧
    mathjsEvaluate exPolicyC7.formulaDefinition [("x", 5)] = Except.ok 6 := by
  refine ⟨fun f scope dv => rfl, rfl, rfl, ?_⟩
  rw [show mathjsEvaluate exPolicyC7.formulaDefinition [("x", 5)] = Except.ok (5 + 1) from rfl,
    show (5 : ℚ) + 1 = 6 from by norm_num]

/-- The incentiveBreakdown subdocument of a MonthlySalary
(src/models/MonthlySalary.js, schema lines 57-80). -/
structure IncentiveBreakdown where
  baseIncentive : ℚ
  targetBonus : ℚ
  serviceTypeBonus : ℚ
  specialBonus : ℚ
  deductions : ℚ
deriving DecidableEq, Repr

/-- The incentive record assembled by calculateStaffIncentive
(IncentiveCalculationService.js lines 101-114): the fields
saveIncentiveData copies into a MonthlySalary document. -/
structure IncentiveData where
  staff : Nat
  month : Nat
  year : Nat
  staffCategory : Nat
  baseSalary : ℚ
  incentiveBreakdown : IncentiveBreakdown
  incentivePolicy : Nat
deriving DecidableEq, Repr

/-- A persisted MonthlySalary document: the copied incentive data plus
the derived totals and the audit fields. -/
structure MonthlySalary where
  data : IncentiveData
  totalIncentive : ℚ
  grossSalary : ℚ
  createdBy : Nat
  updatedBy : Nat
deriving DecidableEq, Repr

/-- The pre-save hook of monthlySalarySchema (MonthlySalary.js lines
140-153): recompute totalIncentive as the sum of the breakdown parts
minus deductions, and grossSalary as baseSalary + totalIncentive. -/
def applySalaryHook (m : MonthlySalary) : MonthlySalary :=
  let ti := m.data.incentiveBreakdown.baseIncentive +
    m.data.incentiveBreakdown.targetBonus +
    m.data.incentiveBreakdown.serviceTypeBonus +
    m.data.incentiveBreakdown.specialBonus -
    m.data.incentiveBreakdown.deductions
  { m with totalIncentive := ti, grossSalary := m.data.baseSalary + ti }

/-- The findOne criterion of saveIncentiveData: same (staff, month,
year) key. -/
def salaryMatches (d : IncentiveData) (m : MonthlySalary) : Bool :=
  m.data.staff == d.staff && m.data.month == d.month && m.data.year == d.year

/-- Apply f to the first element satisfying p, modelling a findOne
followed by a mutation and save of the fetched document. -/
def upsertFirst {α : Type} (p : α → Bool) (f : α → α) : List α → List α
  | [] => []
  | x :: rest => if p x then f x :: rest else x :: upsertFirst p f rest

/-- saveIncentiveData (IncentiveCalculationService.js lines 296-324):
findOne by (staff, month, year); when a record exists, Object.assign the
incentive data over it and set updatedBy, else build a new record with
createdBy = updatedBy = actionBy; saving runs the pre-save hook. -/
def saveIncentiveData (db : List MonthlySalary) (incentiveData : IncentiveData)
    (actionBy : Nat) : List MonthlySalary :=
  if db.any (salaryMatches incentiveData) then
    upsertFirst (salaryMatches incentiveData)
      (fun m => applySalaryHook { m with data := incentiveData, updatedBy := actionBy }) db
  else
    db ++ [applySalaryHook
      { data := incentiveData, totalIncentive := 0, grossSalary := 0,
        createdBy := actionBy, updatedBy := actionBy }]

/-- When no element of a prefix satisfies p, upsertFirst acts on the
suffix only. -/
theorem upsertFirst_append_of_none {α : Type} (p : α → Bool) (f : α → α) :
    ∀ (db l : List α), (∀ m ∈ db, p m = false) →
    upsertFirst p f (db ++ l) = db ++ upsertFirst p f l := by
  intro db
  induction db with
  | nil => intro l _; rfl
  | cons x rest ih =>
    intro l h
    rw [List.cons_append, upsertFirst, if_neg (by simp [h x (List.mem_cons_self x rest)])]
    rw [ih l (fun m hm => h m (List.mem_cons_of_mem x hm)), List.cons_append]

/-- The fresh record matches its own key. -/
theorem salaryMatches_self (d : IncentiveData) (ti gs : ℚ) (c u : Nat) :
    salaryMatches d (applySalaryHook ⟨d, ti, gs, c, u⟩) = true := by
  simp [salaryMatches, applySalaryHook]

/-- C4: starting from a store holding no record for the (staff, month,
year) key, the first save appends exactly one record carrying
createdBy = updatedBy = actor, and a second save with the same data
merges into that record (keeping createdBy, setting updatedBy) instead
of inserting a duplicate, leaving exactly one record for the key. -/
theorem saveIncentiveData_upsert_exactly_once (db : List MonthlySalary)
    (d : IncentiveData) (actor1 actor2 : Nat)
    (h : ∀ m ∈ db, salaryMatches d m = false) :
    saveIncentiveData db d actor1 =
      db ++ [applySalaryHook ⟨d, 0, 0, actor1, actor1⟩] ∧
    saveIncentiveData (saveIncentiveData db d actor1) d actor2 =
      db ++ [applySalaryHook ⟨d, 0, 0, actor1, actor2⟩] ∧
    (saveIncentiveData (saveIncentiveData db d actor1) d actor2).countP (salaryMatches d)
      = 1 := by
  have hany : db.any (salaryMatches d) = false := by
    rw [List.any_eq_false]
    intro m hm
    simp [h m hm]
  have h1 : saveIncentiveData db d actor1 =
      db ++ [applySalaryHook ⟨d, 0, 0, actor1, actor1⟩] := by
    rw [saveIncentiveData, if_neg (by simp [hany])]
  set r1 := applySalaryHook ⟨d, 0, 0, actor1, actor1⟩ with hr1
  have hmatch : salaryMatches d r1 = true := salaryMatches_self d 0 0 actor1 actor1
  have hany2 : (db ++ [r1]).any (salaryMatches d) = true := by
    rw [List.any_append]
    simp [hmatch]
  have hmerge : applySalaryHook { r1 with data := d, updatedBy := actor2 } =
      applySalaryHook ⟨d, 0, 0, actor1, actor2⟩ := by
    rw [hr1]
    rfl
  have h2 : saveIncentiveData (saveIncentiveData db d actor1) d actor2 =
      db ++ [applySalaryHook ⟨d, 0, 0, actor1, actor2⟩] := by
    rw [h1, saveIncentiveData, if_pos hany2,
      upsertFirst_append_of_none (salaryMatches d) _ db _ h,
      upsertFirst, if_pos hmatch, hmerge]
  refine ⟨h1, h2, ?_⟩
  rw [h2, List.countP_append]
  have hc0 : db.countP (salaryMatches d) = 0 := by
    rw [List.countP_eq_zero]
    intro m hm
    simp [h m hm]
  rw [hc0]
  simp [List.countP_cons, salaryMatches_self]

/-- A concrete incentive record for the upsert witness. -/
def exDataC4 : IncentiveData :=
  { staff := 3, month := 4, year := 2024, staffCategory := 2,
    baseSalary := 1000, incentiveBreakdown := ⟨100, 200, 50, 0, 25⟩,
    incentivePolicy := 6 }

/-- C4 witness: saving the concrete record twice into an empty store
leaves exactly one record for the key, created by actor 9 and last
updated by actor 9. -/
theorem saveIncentiveData_upsert_exactly_once_witness :
    saveIncentiveData [] exDataC4 9 =
      [applySalaryHook ⟨exDataC4, 0, 0, 9, 9⟩] ∧
    saveIncentiveData (saveIncentiveData [] exDataC4 9) exDataC4 9 =
      [applySalaryHook ⟨exDataC4, 0, 0, 9, 9⟩] ∧
    (saveIncentiveData (saveIncentiveData [] exDataC4 9) exDataC4 9).countP
      (salaryMatches exDataC4) = 1 :=
  saveIncentiveData_upsert_exactly_once [] exDataC4 9 9 (by simp)

/-- calculateCategoryIncentives (IncentiveCalculationService.js lines
335-370): iterate over the staff list; for each staff member run the
compute-then-save step; push the saved record on success; on failure
log and continue with the next staff member. Only the list of
successfully saved records is returned. The per-staff step is abstract
here: it models calculateStaffIncentive followed by saveIncentiveData,
either of which may fail with an error message. -/
def calculateCategoryIncentives {α : Type} (staffList : List Nat)
    (computeAndSave : Nat → Except String α) : List α :=
  staffList.foldl
    (fun results staffId =>
      match computeAndSave staffId with
      | Except.ok savedRecord => results ++ [savedRecord]
      | Except.error _ => results)
    []

/-- Generalized accumulator form of the batch loop. -/
theorem calculateCategoryIncentives_foldl {α : Type}
    (computeAndSave : Nat → Except String α) :
    ∀ (staffList : List Nat) (acc : List α),
    staffList.foldl
      (fun results staffId =>
        match computeAndSave staffId with
        | Except.ok savedRecord => results ++ [savedRecord]
        | Except.error _ => results) acc
      = acc ++ staffList.filterMap (fun s => (computeAndSave s).toOption) := by
  intro staffList
  induction staffList with
  | nil => intro acc; simp
  | cons s rest ih =>
    intro acc
    rw [List.foldl_cons]
    cases hs : computeAndSave s with
    | ok r =>
      rw [ih (acc ++ [r])]
      simp [List.filterMap_cons, hs, Except.toOption]
    | error e =>
      rw [ih acc]
      simp [List.filterMap_cons, hs, Except.toOption]

/-- C5 (amended): the batch never throws a per-staff error (it is a
total function of the per-staff outcomes) and returns exactly the
successfully saved records of the staff list in order — staff members
after a failure are still processed — but nothing else: the return
value contains no failure report. -/
theorem calculateCategoryIncentives_returns_successes {α : Type}
    (staffList : List Nat) (computeAndSave : Nat → Except String α) :
    calculateCategoryIncentives staffList computeAndSave =
      staffList.filterMap (fun s => (computeAndSave s).toOption) := by
  rw [calculateCategoryIncentives, calculateCategoryIncentives_foldl]
  rfl

/-- C5 counterexample: a batch over staff member 1 whose step fails
returns the bare empty list whatever the error was — the two runs with
different failures are indistinguishable from the return value, which
therefore carries neither the failed staff id nor any error
description, refuting the claimed parallel failure report. -/
theorem calculateCategoryIncentives_no_failure_report_counterexample :
    calculateCategoryIncentives [1]
      (fun _ => (Except.error "staff not found" : Except String Nat)) = [] ∧
    calculateCategoryIncentives [1]
      (fun _ => (Except.error "database down" : Except String Nat)) = [] ∧
    calculateCategoryIncentives [1]
      (fun _ => (Except.error "staff not found" : Except String Nat)) =
    calculateCategoryIncentives [1]
      (fun _ => (Except.error "database down" : Except String Nat)) :=
  ⟨rfl, rfl, rfl⟩
